import Mathlib

/-!
# Verification of the rate-limit bucket engines

Shallow embedding of the repository's rate limiters
(`src/rate_limit/leaky_bucket/core.py`, `src/rate_limit/token_bucket/core.py`,
`src/limitor/configs.py`).

Real-valued quantities (levels, amounts, rates, monotonic-clock readings) are
modelled as rationals; the source performs exact comparisons with no epsilon,
so `ℚ` captures the decision logic faithfully.  Wall-clock readings taken by
`time.monotonic()` are passed in explicitly: one `now` per probe.  The
blocking retry loop of `acquire` is modelled by the list of probe instants it
observes; an empty remainder means the loop is still waiting.
-/

/-- Python's built-in `max(a, b)`: returns `b` exactly when `a < b`.
Written as a conditional so that concrete runs reduce in the kernel. -/
def pymax (a b : ℚ) : ℚ := if a < b then b else a

/-- Python's built-in `min(a, b)`: returns `b` exactly when `b < a`. -/
def pymin (a b : ℚ) : ℚ := if b < a then b else a

/-- Discriminates the failure branch of a Python call modelled with `Except`
(an exception was raised). -/
def isFailure {ε α : Type} : Except ε α → Bool
  | .error _ => true
  | .ok _ => false

/-- The `Capacity` named tuple returned by `capacity_info`. -/
structure Capacity where
  has_capacity : Bool
  needed_capacity : ℚ
deriving Repr, DecidableEq

namespace LeakyBucket

/-- Mutable state of `SyncLeakyBucket` / `AsyncLeakyBucket`:
`_bucket_level` and `_last_leak`. -/
structure State where
  bucket_level : ℚ
  last_leak : ℚ
deriving Repr, DecidableEq

/-- `SyncLeakyBucket.__init__`: `_bucket_level = 0`, `_last_leak = now`. -/
def init (t0 : ℚ) : State :=
  { bucket_level := 0, last_leak := t0 }

/-- `SyncLeakyBucket._leak`: decay the level by the elapsed time since the
last leak, clamped below at 0, and record the probe instant. -/
def leak (leak_rate : ℚ) (s : State) (now : ℚ) : State :=
  { bucket_level := pymax 0 (s.bucket_level - (now - s.last_leak) * leak_rate),
    last_leak := now }

/-- `SyncLeakyBucket.capacity_info`: leak, then decide.  Returns the
`Capacity` decision together with the post-leak state (the Python method
mutates `self`). -/
def capacity_info (capacity leak_rate : ℚ) (s : State) (now : ℚ) (amount : ℚ) :
    Capacity × State :=
  let s' := leak leak_rate s now
  let needed := s'.bucket_level + amount - capacity
  ({ has_capacity := decide (needed ≤ 0), needed_capacity := needed }, s')

/-- Result of running the `acquire` retry loop: the durations actually passed
to `time.sleep`, the final bucket state, and whether admission happened
within the supplied probe instants. -/
structure AcquireResult where
  sleeps : List ℚ
  state : State
  admitted : Bool
deriving Repr, DecidableEq

/-- The `while not capacity_info.has_capacity` loop of
`SyncLeakyBucket.acquire`, plus the final commit `_bucket_level += amount`.
Each loop iteration probes `capacity_info()` — with the DEFAULT amount of 1,
not the requested `amount` — at the next supplied instant; on denial it
computes `wait_time = needed / leak_rate` and sleeps it only when positive. -/
def acquireGo (capacity leak_rate amount : ℚ) :
    List ℚ → State → AcquireResult
  | [], s => { sleeps := [], state := s, admitted := false }
  | now :: rest, s =>
    let p := capacity_info capacity leak_rate s now 1
    if p.1.has_capacity then
      { sleeps := [],
        state := { p.2 with bucket_level := p.2.bucket_level + amount },
        admitted := true }
    else
      let wait_time := p.1.needed_capacity / leak_rate
      let r := acquireGo capacity leak_rate amount rest p.2
      { sleeps := (if 0 < wait_time then [wait_time] else []) ++ r.sleeps,
        state := r.state,
        admitted := r.admitted }

/-- `SyncLeakyBucket.acquire`: the only validation is
`amount > capacity → ValueError`; then the retry loop runs. -/
def acquire (capacity leak_rate amount : ℚ) (times : List ℚ) (s : State) :
    Except String AcquireResult :=
  if capacity < amount then
    .error "Cannot acquire more than the bucket capacity"
  else
    .ok (acquireGo capacity leak_rate amount times s)

end LeakyBucket

namespace TokenBucket

/-- Mutable state of `SyncTokenBucket`: `_bucket_level` and `_last_fill`. -/
structure State where
  bucket_level : ℚ
  last_fill : ℚ
deriving Repr, DecidableEq

/-- `SyncTokenBucket.__init__`: `_bucket_level = capacity` (starts full),
`_last_fill = now`. -/
def init (capacity t0 : ℚ) : State :=
  { bucket_level := capacity, last_fill := t0 }

/-- `SyncTokenBucket._fill`: refill the level by the elapsed time since the
last fill, clamped above at `capacity`, and record the probe instant. -/
def fill (capacity fill_rate : ℚ) (s : State) (now : ℚ) : State :=
  { bucket_level := pymin capacity (s.bucket_level + (now - s.last_fill) * fill_rate),
    last_fill := now }

/-- `SyncTokenBucket.capacity_info`: fill, then decide
(`needed = amount - _bucket_level`). -/
def capacity_info (capacity fill_rate : ℚ) (s : State) (now : ℚ) (amount : ℚ) :
    Capacity × State :=
  let s' := fill capacity fill_rate s now
  let needed := amount - s'.bucket_level
  ({ has_capacity := decide (needed ≤ 0), needed_capacity := needed }, s')

/-- Result of running the `acquire` retry loop of the token bucket. -/
structure AcquireResult where
  sleeps : List ℚ
  state : State
  admitted : Bool
deriving Repr, DecidableEq

/-- The `while not capacity_info.has_capacity` loop of
`SyncTokenBucket.acquire`, plus the final commit `_bucket_level -= amount`.
As in the leaky bucket, each iteration probes `capacity_info()` with the
DEFAULT amount of 1. -/
def acquireGo (capacity fill_rate amount : ℚ) :
    List ℚ → State → AcquireResult
  | [], s => { sleeps := [], state := s, admitted := false }
  | now :: rest, s =>
    let p := capacity_info capacity fill_rate s now 1
    if p.1.has_capacity then
      { sleeps := [],
        state := { p.2 with bucket_level := p.2.bucket_level - amount },
        admitted := true }
    else
      let wait_time := p.1.needed_capacity / fill_rate
      let r := acquireGo capacity fill_rate amount rest p.2
      { sleeps := (if 0 < wait_time then [wait_time] else []) ++ r.sleeps,
        state := r.state,
        admitted := r.admitted }

/-- `SyncTokenBucket.acquire`: the only validation is
`amount > capacity → ValueError`; then the retry loop runs. -/
def acquire (capacity fill_rate amount : ℚ) (times : List ℚ) (s : State) :
    Except String AcquireResult :=
  if capacity < amount then
    .error "Cannot acquire more than the bucket capacity"
  else
    .ok (acquireGo capacity fill_rate amount times s)

/-- Iterated `acquire(1)` calls, all performed at one instant `t`: models a
burst of unit requests against `SyncTokenBucket`.  Returns the final state and
whether every call in the burst was admitted without sleeping. -/
def acquireN (capacity fill_rate t : ℚ) : ℕ → State → State × Bool
  | 0, s => (s, true)
  | n + 1, s =>
    let r := acquireGo capacity fill_rate 1 [t] s
    let p := acquireN capacity fill_rate t n r.state
    (p.1, r.admitted && decide (r.sleeps = []) && p.2)

end TokenBucket

/-- `LeakyBucketConfig.__post_init__` (`src/rate_limit/leaky_bucket/core.py`):
computes `leak_rate_per_sec = capacity / seconds` (a `ZeroDivisionError` when
`seconds = 0`), rejects a non-positive rate, then rejects `capacity < 1`.
On success the pair `(capacity, leak_rate)` parametrizes the bucket
(`SyncLeakyBucket.__init__` recomputes `leak_rate = capacity / seconds`). -/
def LeakyBucketConfig.make (capacity seconds : ℚ) : Except String (ℚ × ℚ) :=
  if seconds = 0 then
    .error "ZeroDivisionError"
  else if capacity / seconds ≤ 0 then
    .error "leak_rate_per_sec must be positive and non-zero"
  else if capacity < 1 then
    .error "capacity must be at least 1"
  else
    .ok (capacity, capacity / seconds)

/-- `TokenBucketConfig.__post_init__` (`src/rate_limit/token_bucket/core.py`):
identical validation with `fill_rate_per_sec = capacity / seconds`. -/
def TokenBucketConfig.make (capacity seconds : ℚ) : Except String (ℚ × ℚ) :=
  if seconds = 0 then
    .error "ZeroDivisionError"
  else if capacity / seconds ≤ 0 then
    .error "fill_rate_per_sec must be positive and non-zero"
  else if capacity < 1 then
    .error "capacity must be at least 1"
  else
    .ok (capacity, capacity / seconds)

/-- `BucketConfig.__post_init__` (`src/limitor/configs.py`): rejects
`seconds ≤ 0`, then `capacity < 1`.  Decimal values are exact, so `ℚ` models
them faithfully; the derived rate is `capacity / seconds`. -/
def BucketConfig.make (capacity seconds : ℚ) : Except String (ℚ × ℚ) :=
  if seconds ≤ 0 then
    .error "seconds must be positive and non-zero"
  else if capacity < 1 then
    .error "capacity must be at least 1"
  else
    .ok (capacity, capacity / seconds)

-- sanity checks of the model on concrete runs
example :
    LeakyBucket.acquireGo 2 2 1 [0] (LeakyBucket.init 0) =
      { sleeps := [], state := { bucket_level := 1, last_leak := 0 }, admitted := true } := by
  norm_num [LeakyBucket.acquireGo, LeakyBucket.capacity_info, LeakyBucket.leak,
    LeakyBucket.init, pymax]

example :
    LeakyBucket.acquire 2 2 1 [0] (LeakyBucket.init 0) =
      .ok { sleeps := [], state := { bucket_level := 1, last_leak := 0 }, admitted := true } := by
  norm_num [LeakyBucket.acquire, LeakyBucket.acquireGo, LeakyBucket.capacity_info,
    LeakyBucket.leak, LeakyBucket.init, pymax]

/-! ## Helper lemmas -/

theorem pymax_eq_max (a b : ℚ) : pymax a b = max a b := by
  unfold pymax
  rcases lt_or_le a b with h | h
  · simp [h, max_eq_right h.le]
  · simp [not_lt.mpr h, max_eq_left h]

theorem pymin_eq_min (a b : ℚ) : pymin a b = min a b := by
  unfold pymin
  rcases lt_or_le b a with h | h
  · simp [h, min_eq_right h.le]
  · simp [not_lt.mpr h, min_eq_left h]

theorem LeakyBucket.leak_bucket_level (leak_rate : ℚ) (s : LeakyBucket.State) (now : ℚ) :
    (LeakyBucket.leak leak_rate s now).bucket_level =
      max 0 (s.bucket_level - (now - s.last_leak) * leak_rate) := by
  simp [LeakyBucket.leak, pymax_eq_max]

theorem TokenBucket.fill_bucket_level (capacity fill_rate : ℚ) (s : TokenBucket.State) (now : ℚ) :
    (TokenBucket.fill capacity fill_rate s now).bucket_level =
      min capacity (s.bucket_level + (now - s.last_fill) * fill_rate) := by
  simp [TokenBucket.fill, pymin_eq_min]

theorem LeakyBucket.leak_level_nonneg (leak_rate : ℚ) (s : LeakyBucket.State) (now : ℚ) :
    0 ≤ (LeakyBucket.leak leak_rate s now).bucket_level := by
  rw [LeakyBucket.leak_bucket_level]
  exact le_max_left _ _

/-- Every duration that the leaky-bucket retry loop actually sleeps is
strictly positive: the `if wait_time > 0` guard filters the rest out. -/
theorem LeakyBucket.leaky_sleeps_pos (capacity leak_rate amount : ℚ) :
    ∀ (times : List ℚ) (s : LeakyBucket.State) (w : ℚ),
      w ∈ (LeakyBucket.acquireGo capacity leak_rate amount times s).sleeps → 0 < w := by
  intro times
  induction times with
  | nil => intro s w hw; simp [LeakyBucket.acquireGo] at hw
  | cons now rest ih =>
    intro s w hw
    rw [LeakyBucket.acquireGo] at hw
    by_cases hcap : (LeakyBucket.capacity_info capacity leak_rate s now 1).1.has_capacity
    · simp [hcap] at hw
    · simp only [hcap, Bool.false_eq_true, if_false, List.mem_append] at hw
      rcases hw with hw | hw
      · by_cases hpos :
          0 < (LeakyBucket.capacity_info capacity leak_rate s now 1).1.needed_capacity / leak_rate
        · simp [hpos] at hw
          exact hw ▸ hpos
        · simp [hpos] at hw
      · exact ih _ w hw

/-- Every duration that the token-bucket retry loop actually sleeps is
strictly positive. -/
theorem TokenBucket.token_sleeps_pos (capacity fill_rate amount : ℚ) :
    ∀ (times : List ℚ) (s : TokenBucket.State) (w : ℚ),
      w ∈ (TokenBucket.acquireGo capacity fill_rate amount times s).sleeps → 0 < w := by
  intro times
  induction times with
  | nil => intro s w hw; simp [TokenBucket.acquireGo] at hw
  | cons now rest ih =>
    intro s w hw
    rw [TokenBucket.acquireGo] at hw
    by_cases hcap : (TokenBucket.capacity_info capacity fill_rate s now 1).1.has_capacity
    · simp [hcap] at hw
    · simp only [hcap, Bool.false_eq_true, if_false, List.mem_append] at hw
      rcases hw with hw | hw
      · by_cases hpos :
          0 < (TokenBucket.capacity_info capacity fill_rate s now 1).1.needed_capacity / fill_rate
        · simp [hpos] at hw
          exact hw ▸ hpos
        · simp [hpos] at hw
      · exact ih _ w hw

/-! ## Claim theorems -/

/-- C2: Leaky bucket engine correctness.  At every probe the level is first
decayed as `level ← max(0, level − elapsed × rate)` with `elapsed` the time
since the last update; the decision is `deficit = level + amount − capacity`
with admission iff `deficit ≤ 0`; and on an admitting probe, `acquire`'s
commit is exactly `level ← level + amount`, applied directly to the probed
state in the same step — no separate two-phase commit. -/
theorem C2_leaky_engine_correct (capacity leak_rate amount now : ℚ)
    (s : LeakyBucket.State) (rest : List ℚ)
    (hfits : (LeakyBucket.capacity_info capacity leak_rate s now 1).1.has_capacity = true) :
    (LeakyBucket.capacity_info capacity leak_rate s now amount).2.bucket_level
        = max 0 (s.bucket_level - (now - s.last_leak) * leak_rate)
    ∧ (LeakyBucket.capacity_info capacity leak_rate s now amount).2.last_leak = now
    ∧ (LeakyBucket.capacity_info capacity leak_rate s now amount).1.needed_capacity
        = (LeakyBucket.leak leak_rate s now).bucket_level + amount - capacity
    ∧ ((LeakyBucket.capacity_info capacity leak_rate s now amount).1.has_capacity = true
        ↔ (LeakyBucket.leak leak_rate s now).bucket_level + amount - capacity ≤ 0)
    ∧ LeakyBucket.acquireGo capacity leak_rate amount (now :: rest) s =
        { sleeps := [],
          state := { bucket_level := (LeakyBucket.leak leak_rate s now).bucket_level + amount,
                     last_leak := now },
          admitted := true } := by
  refine ⟨?_, ?_, ?_, ?_, ?_⟩
  · simp [LeakyBucket.capacity_info, LeakyBucket.leak_bucket_level]
  · simp [LeakyBucket.capacity_info, LeakyBucket.leak]
  · simp [LeakyBucket.capacity_info]
  · simp [LeakyBucket.capacity_info]
  · rw [LeakyBucket.acquireGo]
    simp only [hfits, if_true]
    simp [LeakyBucket.capacity_info, LeakyBucket.leak]

/-- C2 witness: a concrete admitting probe (capacity 3, rate 3, level 1,
request 2) evaluated through the theorem. -/
theorem C2_leaky_engine_correct_witness :
    LeakyBucket.acquireGo 3 3 2 [0] { bucket_level := 1, last_leak := 0 } =
      { sleeps := [], state := { bucket_level := 3, last_leak := 0 }, admitted := true } := by
  have h := (C2_leaky_engine_correct 3 3 2 0 { bucket_level := 1, last_leak := 0 } []
    (by norm_num [LeakyBucket.capacity_info, LeakyBucket.leak, pymax])).2.2.2.2
  rw [h]
  norm_num [LeakyBucket.leak, pymax]

/-- A burst of `n` unit acquisitions at the construction instant, started from
level `capacity - k`, is admitted in full without sleeping whenever
`k + n ≤ capacity`. -/
theorem TokenBucket.acquireN_burst (capacity fill_rate t0 : ℚ) :
    ∀ (n k : ℕ), ((k : ℚ) + (n : ℚ) ≤ capacity) →
      TokenBucket.acquireN capacity fill_rate t0 n
          { bucket_level := capacity - (k : ℚ), last_fill := t0 } =
        ({ bucket_level := capacity - ((k + n : ℕ) : ℚ), last_fill := t0 }, true) := by
  intro n
  induction n with
  | zero =>
    intro k h
    simp [TokenBucket.acquireN]
  | succ n ih =>
    intro k h
    have hk : (0 : ℚ) ≤ (k : ℚ) := Nat.cast_nonneg k
    have hn : (0 : ℚ) ≤ (n : ℚ) := Nat.cast_nonneg n
    have hlevel :
        (TokenBucket.fill capacity fill_rate
            { bucket_level := capacity - (k : ℚ), last_fill := t0 } t0).bucket_level
          = capacity - (k : ℚ) := by
      rw [TokenBucket.fill_bucket_level]
      simp only [sub_self, zero_mul, add_zero]
      exact min_eq_right (by linarith)
    have hfill :
        TokenBucket.fill capacity fill_rate
            { bucket_level := capacity - (k : ℚ), last_fill := t0 } t0
          = { bucket_level := capacity - (k : ℚ), last_fill := t0 } := by
      have : (TokenBucket.fill capacity fill_rate
          { bucket_level := capacity - (k : ℚ), last_fill := t0 } t0).last_fill = t0 := rfl
      cases hfs : TokenBucket.fill capacity fill_rate
          { bucket_level := capacity - (k : ℚ), last_fill := t0 } t0
      simp_all
    have hone : (1 : ℚ) ≤ capacity - (k : ℚ) := by
      push_cast at h
      linarith
    have hadm :
        (TokenBucket.capacity_info capacity fill_rate
            { bucket_level := capacity - (k : ℚ), last_fill := t0 } t0 1).1.has_capacity
          = true := by
      simp only [TokenBucket.capacity_info, hfill]
      simp
      linarith
    have hstep :
        TokenBucket.acquireGo capacity fill_rate 1 [t0]
            { bucket_level := capacity - (k : ℚ), last_fill := t0 } =
          { sleeps := [],
            state := { bucket_level := capacity - (k : ℚ) - 1, last_fill := t0 },
            admitted := true } := by
      rw [TokenBucket.acquireGo]
      simp only [hadm, if_true]
      simp [TokenBucket.capacity_info, hfill]
    have hstate :
        ({ bucket_level := capacity - (k : ℚ) - 1, last_fill := t0 } : TokenBucket.State)
          = { bucket_level := capacity - ((k + 1 : ℕ) : ℚ), last_fill := t0 } := by
      push_cast
      ring_nf
    have ih' := ih (k + 1) (by push_cast at h ⊢; linarith)
    rw [TokenBucket.acquireN, hstep]
    simp only [hstate]
    rw [ih']
    have : ((k + 1 + n : ℕ) : ℚ) = ((k + (n + 1) : ℕ) : ℚ) := by
      push_cast
      ring
    simp [this]

/-- C3: Token bucket engine correctness.  The bucket is constructed full
(`level = capacity`); at every probe the level is refilled as
`level ← min(capacity, level + elapsed × rate)`; the decision is
`deficit = amount − level` with admission iff `deficit ≤ 0`; on an admitting
probe the commit is exactly `level ← level − amount`; and a first burst of
unit requests up to `capacity` is admitted immediately with no wait. -/
theorem C3_token_engine_correct (capacity fill_rate amount now t0 : ℚ)
    (s : TokenBucket.State) (rest : List ℚ)
    (hfits : (TokenBucket.capacity_info capacity fill_rate s now 1).1.has_capacity = true) :
    (TokenBucket.init capacity t0).bucket_level = capacity
    ∧ (TokenBucket.capacity_info capacity fill_rate s now amount).2.bucket_level
        = min capacity (s.bucket_level + (now - s.last_fill) * fill_rate)
    ∧ (TokenBucket.capacity_info capacity fill_rate s now amount).2.last_fill = now
    ∧ (TokenBucket.capacity_info capacity fill_rate s now amount).1.needed_capacity
        = amount - (TokenBucket.fill capacity fill_rate s now).bucket_level
    ∧ ((TokenBucket.capacity_info capacity fill_rate s now amount).1.has_capacity = true
        ↔ amount - (TokenBucket.fill capacity fill_rate s now).bucket_level ≤ 0)
    ∧ TokenBucket.acquireGo capacity fill_rate amount (now :: rest) s =
        { sleeps := [],
          state := { bucket_level := (TokenBucket.fill capacity fill_rate s now).bucket_level
                        - amount,
                     last_fill := now },
          admitted := true }
    ∧ (∀ n : ℕ, ((n : ℚ) ≤ capacity) →
        (TokenBucket.acquireN capacity fill_rate t0 n (TokenBucket.init capacity t0)).2
          = true) := by
  refine ⟨rfl, ?_, ?_, ?_, ?_, ?_, ?_⟩
  · simp [TokenBucket.capacity_info, TokenBucket.fill_bucket_level]
  · simp [TokenBucket.capacity_info, TokenBucket.fill]
  · simp [TokenBucket.capacity_info]
  · simp [TokenBucket.capacity_info]
  · rw [TokenBucket.acquireGo]
    simp only [hfits, if_true]
    simp [TokenBucket.capacity_info, TokenBucket.fill]
  · intro n hn
    have h0 : ((0 : ℕ) : ℚ) + (n : ℚ) ≤ capacity := by simpa using hn
    have hinit : (TokenBucket.init capacity t0)
        = { bucket_level := capacity - ((0 : ℕ) : ℚ), last_fill := t0 } := by
      simp [TokenBucket.init]
    rw [hinit, TokenBucket.acquireN_burst capacity fill_rate t0 n 0 h0]

/-- C3 witness: capacity 2, rate 2, a full bucket at time 0 admits a probe
and a burst of two unit acquisitions with no sleeping. -/
theorem C3_token_engine_correct_witness :
    (TokenBucket.acquireN 2 2 0 2 (TokenBucket.init 2 0)).2 = true :=
  (C3_token_engine_correct 2 2 1 0 0 { bucket_level := 2, last_fill := 0 } []
      (by norm_num [TokenBucket.capacity_info, TokenBucket.fill, pymin])).2.2.2.2.2.2
    2 (by norm_num)

/-- A denied probe of the leaky-bucket retry loop sleeps exactly
`needed / leak_rate` before re-probing (the guard passes because the deficit
is positive and the rate is positive). -/
theorem LeakyBucket.leaky_denied_sleeps (capacity leak_rate amount now : ℚ) (rest : List ℚ)
    (s : LeakyBucket.State) (hrate : 0 < leak_rate)
    (hdeny : (LeakyBucket.capacity_info capacity leak_rate s now 1).1.has_capacity = false) :
    0 < (LeakyBucket.capacity_info capacity leak_rate s now 1).1.needed_capacity
    ∧ (LeakyBucket.acquireGo capacity leak_rate amount (now :: rest) s).sleeps
      = (LeakyBucket.capacity_info capacity leak_rate s now 1).1.needed_capacity / leak_rate
        :: (LeakyBucket.acquireGo capacity leak_rate amount rest
            (LeakyBucket.capacity_info capacity leak_rate s now 1).2).sleeps := by
  have hpos0 : 0 < (LeakyBucket.capacity_info capacity leak_rate s now 1).1.needed_capacity := by
    simp only [LeakyBucket.capacity_info, decide_eq_false_iff_not, not_le] at hdeny ⊢
    exact hdeny
  refine ⟨hpos0, ?_⟩
  have hpos : 0 < (LeakyBucket.capacity_info capacity leak_rate s now 1).1.needed_capacity
      / leak_rate := div_pos hpos0 hrate
  rw [LeakyBucket.acquireGo]
  simp only [hdeny, Bool.false_eq_true, if_false, hpos, if_true, List.singleton_append]

/-- A denied probe of the token-bucket retry loop sleeps exactly
`needed / fill_rate` before re-probing. -/
theorem TokenBucket.token_denied_sleeps (capacity fill_rate amount now : ℚ) (rest : List ℚ)
    (s : TokenBucket.State) (hrate : 0 < fill_rate)
    (hdeny : (TokenBucket.capacity_info capacity fill_rate s now 1).1.has_capacity = false) :
    0 < (TokenBucket.capacity_info capacity fill_rate s now 1).1.needed_capacity
    ∧ (TokenBucket.acquireGo capacity fill_rate amount (now :: rest) s).sleeps
      = (TokenBucket.capacity_info capacity fill_rate s now 1).1.needed_capacity / fill_rate
        :: (TokenBucket.acquireGo capacity fill_rate amount rest
            (TokenBucket.capacity_info capacity fill_rate s now 1).2).sleeps := by
  have hpos0 : 0 < (TokenBucket.capacity_info capacity fill_rate s now 1).1.needed_capacity := by
    simp only [TokenBucket.capacity_info, decide_eq_false_iff_not, not_le] at hdeny ⊢
    exact hdeny
  refine ⟨hpos0, ?_⟩
  have hpos : 0 < (TokenBucket.capacity_info capacity fill_rate s now 1).1.needed_capacity
      / fill_rate := div_pos hpos0 hrate
  rw [TokenBucket.acquireGo]
  simp only [hdeny, Bool.false_eq_true, if_false, hpos, if_true, List.singleton_append]

/-- C5: For every denied probe with deficit `d > 0`, the retry loop sleeps
exactly `d / rate` with `rate = capacity / seconds`, for both engines, for
any `amount ≤ capacity` — the slept duration is the deficit divided by the
rate, nothing else; and no zero-or-negative wait value is ever slept on
(every recorded sleep is strictly positive). -/
theorem C5_wait_equals_deficit_over_rate
    (capacity seconds amount now : ℚ) (rest : List ℚ)
    (ls : LeakyBucket.State) (ts : TokenBucket.State)
    (hcap : 0 < capacity) (hsec : 0 < seconds) (hamt : amount ≤ capacity)
    (hdenyL : (LeakyBucket.capacity_info capacity (capacity / seconds) ls now 1).1.has_capacity
      = false)
    (hdenyT : (TokenBucket.capacity_info capacity (capacity / seconds) ts now 1).1.has_capacity
      = false) :
    (0 < (LeakyBucket.capacity_info capacity (capacity / seconds) ls now 1).1.needed_capacity
      ∧ (LeakyBucket.acquireGo capacity (capacity / seconds) amount (now :: rest) ls).sleeps
        = (LeakyBucket.capacity_info capacity (capacity / seconds) ls now 1).1.needed_capacity
            / (capacity / seconds)
          :: (LeakyBucket.acquireGo capacity (capacity / seconds) amount rest
              (LeakyBucket.capacity_info capacity (capacity / seconds) ls now 1).2).sleeps)
    ∧ (0 < (TokenBucket.capacity_info capacity (capacity / seconds) ts now 1).1.needed_capacity
      ∧ (TokenBucket.acquireGo capacity (capacity / seconds) amount (now :: rest) ts).sleeps
        = (TokenBucket.capacity_info capacity (capacity / seconds) ts now 1).1.needed_capacity
            / (capacity / seconds)
          :: (TokenBucket.acquireGo capacity (capacity / seconds) amount rest
              (TokenBucket.capacity_info capacity (capacity / seconds) ts now 1).2).sleeps)
    ∧ (∀ w ∈ (LeakyBucket.acquireGo capacity (capacity / seconds) amount (now :: rest) ls).sleeps,
        0 < w)
    ∧ (∀ w ∈ (TokenBucket.acquireGo capacity (capacity / seconds) amount (now :: rest) ts).sleeps,
        0 < w) := by
  have hrate : 0 < capacity / seconds := div_pos hcap hsec
  exact ⟨LeakyBucket.leaky_denied_sleeps capacity (capacity / seconds) amount now rest ls hrate hdenyL,
    TokenBucket.token_denied_sleeps capacity (capacity / seconds) amount now rest ts hrate hdenyT,
    fun w hw => LeakyBucket.leaky_sleeps_pos capacity (capacity / seconds) amount _ ls w hw,
    fun w hw => TokenBucket.token_sleeps_pos capacity (capacity / seconds) amount _ ts w hw⟩

/-- C5 witness: capacity 2 over 1 second (rate 2), leaky level 2 and token
level 0 at time 0: both probes are denied with deficit 1 and the loop sleeps
exactly 1/2. -/
theorem C5_wait_equals_deficit_over_rate_witness :
    (LeakyBucket.acquireGo 2 (2 / 1) 1 [0] { bucket_level := 2, last_leak := 0 }).sleeps
      = [1 / (2 / 1)]
    ∧ (TokenBucket.acquireGo 2 (2 / 1) 1 [0] { bucket_level := 0, last_fill := 0 }).sleeps
      = [1 / (2 / 1)] := by
  have h := C5_wait_equals_deficit_over_rate 2 1 1 0 []
    { bucket_level := 2, last_leak := 0 } { bucket_level := 0, last_fill := 0 }
    (by norm_num) (by norm_num) (by norm_num)
    (by norm_num [LeakyBucket.capacity_info, LeakyBucket.leak, pymax])
    (by norm_num [TokenBucket.capacity_info, TokenBucket.fill, pymin])
  refine ⟨?_, ?_⟩
  · rw [h.1.2]
    norm_num [LeakyBucket.capacity_info, LeakyBucket.leak, LeakyBucket.acquireGo, pymax]
  · rw [h.2.1.2]
    norm_num [TokenBucket.capacity_info, TokenBucket.fill, TokenBucket.acquireGo, pymin]

/-- C7: Construction of a bucket config with `capacity < 1` or `seconds ≤ 0`
always fails, for all three config classes (`LeakyBucketConfig`,
`TokenBucketConfig`, `BucketConfig`); and every config that constructs
successfully has `rate = capacity / seconds > 0`. -/
theorem C7_config_validation (capacity seconds : ℚ) :
    ((capacity < 1 ∨ seconds ≤ 0) →
      isFailure (LeakyBucketConfig.make capacity seconds) = true
      ∧ isFailure (TokenBucketConfig.make capacity seconds) = true
      ∧ isFailure (BucketConfig.make capacity seconds) = true)
    ∧ (∀ cap rate, LeakyBucketConfig.make capacity seconds = .ok (cap, rate) →
        rate = capacity / seconds ∧ 0 < rate)
    ∧ (∀ cap rate, TokenBucketConfig.make capacity seconds = .ok (cap, rate) →
        rate = capacity / seconds ∧ 0 < rate)
    ∧ (∀ cap rate, BucketConfig.make capacity seconds = .ok (cap, rate) →
        rate = capacity / seconds ∧ 0 < rate) := by
  refine ⟨?_, ?_, ?_, ?_⟩
  · intro h
    refine ⟨?_, ?_, ?_⟩
    · unfold LeakyBucketConfig.make
      split_ifs with h1 h2 h3
      · rfl
      · rfl
      · rfl
      · exfalso
        have hsec : 0 < seconds := by
          rcases div_pos_iff.mp (not_le.mp h2) with ⟨hc, hs⟩ | ⟨hc, hs⟩
          · exact hs
          · linarith [not_lt.mp h3]
        rcases h with h | h
        · exact h3 h
        · linarith
    · unfold TokenBucketConfig.make
      split_ifs with h1 h2 h3
      · rfl
      · rfl
      · rfl
      · exfalso
        have hsec : 0 < seconds := by
          rcases div_pos_iff.mp (not_le.mp h2) with ⟨hc, hs⟩ | ⟨hc, hs⟩
          · exact hs
          · linarith [not_lt.mp h3]
        rcases h with h | h
        · exact h3 h
        · linarith
    · unfold BucketConfig.make
      split_ifs with h1 h2
      · rfl
      · rfl
      · exfalso
        rcases h with h | h
        · exact h2 h
        · exact h1 h
  · intro cap rate hok
    unfold LeakyBucketConfig.make at hok
    split_ifs at hok with h1 h2 h3
    simp only [Except.ok.injEq, Prod.mk.injEq] at hok
    exact ⟨hok.2.symm, hok.2 ▸ not_le.mp h2⟩
  · intro cap rate hok
    unfold TokenBucketConfig.make at hok
    split_ifs at hok with h1 h2 h3
    simp only [Except.ok.injEq, Prod.mk.injEq] at hok
    exact ⟨hok.2.symm, hok.2 ▸ not_le.mp h2⟩
  · intro cap rate hok
    unfold BucketConfig.make at hok
    split_ifs at hok with h1 h2
    simp only [Except.ok.injEq, Prod.mk.injEq] at hok
    have hsec : 0 < seconds := not_le.mp h1
    have hcap : (0 : ℚ) < capacity := lt_of_lt_of_le zero_lt_one (not_lt.mp h2)
    exact ⟨hok.2.symm, hok.2 ▸ div_pos hcap hsec⟩

/-- C7 witness: `capacity = 0` is rejected; `capacity = 2, seconds = 1`
constructs with rate `2/1 > 0`. -/
theorem C7_config_validation_witness :
    isFailure (LeakyBucketConfig.make 0 1) = true ∧ (0 : ℚ) < 2 / 1 :=
  ⟨((C7_config_validation 0 1).1 (Or.inl (by norm_num))).1,
   ((C7_config_validation 2 1).2.1 2 (2 / 1)
      (by norm_num [LeakyBucketConfig.make])).2⟩

/-- Leaking twice at the same instant is the same as leaking once. -/
theorem LeakyBucket.leak_idem (leak_rate : ℚ) (s : LeakyBucket.State) (now : ℚ) :
    LeakyBucket.leak leak_rate (LeakyBucket.leak leak_rate s now) now
      = LeakyBucket.leak leak_rate s now := by
  simp only [LeakyBucket.leak, pymax_eq_max, sub_self, zero_mul, sub_zero]
  rw [max_eq_right (le_max_left _ _)]

/-- Filling twice at the same instant is the same as filling once. -/
theorem TokenBucket.fill_idem (capacity fill_rate : ℚ) (s : TokenBucket.State) (now : ℚ) :
    TokenBucket.fill capacity fill_rate (TokenBucket.fill capacity fill_rate s now) now
      = TokenBucket.fill capacity fill_rate s now := by
  simp only [TokenBucket.fill, pymin_eq_min, sub_self, zero_mul, add_zero]
  rw [min_eq_right (min_le_left _ _)]

/-- Leaking through an intermediate instant equals leaking directly to the
later instant (clock moving forward, non-negative rate): the decayed level is
independent of how many probes are taken along the way. -/
theorem LeakyBucket.leak_comp (leak_rate now₁ now₂ : ℚ) (s : LeakyBucket.State)
    (hr : 0 ≤ leak_rate) (ht : now₁ ≤ now₂) :
    LeakyBucket.leak leak_rate (LeakyBucket.leak leak_rate s now₁) now₂
      = LeakyBucket.leak leak_rate s now₂ := by
  have he : 0 ≤ (now₂ - now₁) * leak_rate := mul_nonneg (by linarith) hr
  simp only [LeakyBucket.leak, pymax_eq_max]
  rcases le_or_lt 0 (s.bucket_level - (now₁ - s.last_leak) * leak_rate) with h | h
  · rw [max_eq_right h]
    congr 1
    ring
  · rw [max_eq_left h.le]
    rw [max_eq_left (by linarith), max_eq_left (by nlinarith)]

/-- Filling through an intermediate instant equals filling directly to the
later instant (clock moving forward, non-negative rate). -/
theorem TokenBucket.fill_comp (capacity fill_rate now₁ now₂ : ℚ) (s : TokenBucket.State)
    (hr : 0 ≤ fill_rate) (ht : now₁ ≤ now₂) :
    TokenBucket.fill capacity fill_rate (TokenBucket.fill capacity fill_rate s now₁) now₂
      = TokenBucket.fill capacity fill_rate s now₂ := by
  have he : 0 ≤ (now₂ - now₁) * fill_rate := mul_nonneg (by linarith) hr
  simp only [TokenBucket.fill, pymin_eq_min]
  rcases le_or_lt (s.bucket_level + (now₁ - s.last_fill) * fill_rate) capacity with h | h
  · rw [min_eq_right h]
    congr 1
    ring
  · rw [min_eq_left h.le]
    rw [min_eq_left (by linarith), min_eq_left (by nlinarith)]

/-- C8: Probing is idempotent and time-monotone.  Re-probing at the same
instant (any interleaved probe amount) returns the same `Capacity` decision —
same admission outcome, same deficit — for the same amount; the post-leak
state reached through a chain of probes equals the one reached by a single
probe at the last instant; and as time advances the leaky level is
non-increasing while the token level (available tokens) is non-decreasing. -/
theorem C8_probe_idempotent_and_monotone (capacity rate a a' now now₁ now₂ : ℚ)
    (ls : LeakyBucket.State) (ts : TokenBucket.State)
    (hr : 0 ≤ rate) (ht : now₁ ≤ now₂) :
    LeakyBucket.capacity_info capacity rate
        (LeakyBucket.capacity_info capacity rate ls now a').2 now a
      = LeakyBucket.capacity_info capacity rate ls now a
    ∧ TokenBucket.capacity_info capacity rate
        (TokenBucket.capacity_info capacity rate ts now a').2 now a
      = TokenBucket.capacity_info capacity rate ts now a
    ∧ LeakyBucket.leak rate (LeakyBucket.leak rate ls now₁) now₂
      = LeakyBucket.leak rate ls now₂
    ∧ TokenBucket.fill capacity rate (TokenBucket.fill capacity rate ts now₁) now₂
      = TokenBucket.fill capacity rate ts now₂
    ∧ (LeakyBucket.leak rate ls now₂).bucket_level
      ≤ (LeakyBucket.leak rate ls now₁).bucket_level
    ∧ (TokenBucket.fill capacity rate ts now₁).bucket_level
      ≤ (TokenBucket.fill capacity rate ts now₂).bucket_level := by
  have hL2 : (LeakyBucket.capacity_info capacity rate ls now a').2
      = LeakyBucket.leak rate ls now := rfl
  have hT2 : (TokenBucket.capacity_info capacity rate ts now a').2
      = TokenBucket.fill capacity rate ts now := rfl
  have hLci : ∀ u : LeakyBucket.State, LeakyBucket.capacity_info capacity rate u now a
      = ({ has_capacity :=
              decide ((LeakyBucket.leak rate u now).bucket_level + a - capacity ≤ 0),
           needed_capacity := (LeakyBucket.leak rate u now).bucket_level + a - capacity },
         LeakyBucket.leak rate u now) := fun u => rfl
  have hTci : ∀ u : TokenBucket.State, TokenBucket.capacity_info capacity rate u now a
      = ({ has_capacity :=
              decide (a - (TokenBucket.fill capacity rate u now).bucket_level ≤ 0),
           needed_capacity := a - (TokenBucket.fill capacity rate u now).bucket_level },
         TokenBucket.fill capacity rate u now) := fun u => rfl
  refine ⟨?_, ?_, LeakyBucket.leak_comp rate now₁ now₂ ls hr ht,
    TokenBucket.fill_comp capacity rate now₁ now₂ ts hr ht, ?_, ?_⟩
  · rw [hL2, hLci, hLci, LeakyBucket.leak_idem]
  · rw [hT2, hTci, hTci, TokenBucket.fill_idem]
  · rw [LeakyBucket.leak_bucket_level, LeakyBucket.leak_bucket_level]
    exact max_le_max le_rfl
      (by nlinarith [mul_le_mul_of_nonneg_right (sub_le_sub_right ht ls.last_leak) hr])
  · rw [TokenBucket.fill_bucket_level, TokenBucket.fill_bucket_level]
    exact min_le_min le_rfl
      (by nlinarith [mul_le_mul_of_nonneg_right (sub_le_sub_right ht ts.last_fill) hr])

/-- C8 witness: concrete repeated probe (capacity 2, rate 2, level 1) at
instant 0 returns the identical decision. -/
theorem C8_probe_idempotent_and_monotone_witness :
    LeakyBucket.capacity_info 2 2
        (LeakyBucket.capacity_info 2 2 { bucket_level := 1, last_leak := 0 } 0 1).2 0 1
      = LeakyBucket.capacity_info 2 2 { bucket_level := 1, last_leak := 0 } 0 1 :=
  (C8_probe_idempotent_and_monotone 2 2 1 1 0 0 1
    { bucket_level := 1, last_leak := 0 } { bucket_level := 1, last_fill := 0 }
    (by norm_num) (by norm_num)).1

/-- The leaky-bucket retry loop never consults the requested amount: its sleep
trace and admission outcome are identical for any two amounts. -/
theorem LeakyBucket.leaky_amount_blind (capacity leak_rate a₁ a₂ : ℚ) :
    ∀ (times : List ℚ) (s : LeakyBucket.State),
      (LeakyBucket.acquireGo capacity leak_rate a₁ times s).sleeps
        = (LeakyBucket.acquireGo capacity leak_rate a₂ times s).sleeps
      ∧ (LeakyBucket.acquireGo capacity leak_rate a₁ times s).admitted
        = (LeakyBucket.acquireGo capacity leak_rate a₂ times s).admitted := by
  intro times
  induction times with
  | nil => intro s; exact ⟨rfl, rfl⟩
  | cons now rest ih =>
    intro s
    rw [LeakyBucket.acquireGo, LeakyBucket.acquireGo]
    by_cases hcap : (LeakyBucket.capacity_info capacity leak_rate s now 1).1.has_capacity
    · simp [hcap]
    · simp only [hcap, Bool.false_eq_true, if_false]
      have h := ih (LeakyBucket.capacity_info capacity leak_rate s now 1).2
      simp [h.1, h.2]

/-- The token-bucket retry loop never consults the requested amount. -/
theorem TokenBucket.token_amount_blind (capacity fill_rate a₁ a₂ : ℚ) :
    ∀ (times : List ℚ) (s : TokenBucket.State),
      (TokenBucket.acquireGo capacity fill_rate a₁ times s).sleeps
        = (TokenBucket.acquireGo capacity fill_rate a₂ times s).sleeps
      ∧ (TokenBucket.acquireGo capacity fill_rate a₁ times s).admitted
        = (TokenBucket.acquireGo capacity fill_rate a₂ times s).admitted := by
  intro times
  induction times with
  | nil => intro s; exact ⟨rfl, rfl⟩
  | cons now rest ih =>
    intro s
    rw [TokenBucket.acquireGo, TokenBucket.acquireGo]
    by_cases hcap : (TokenBucket.capacity_info capacity fill_rate s now 1).1.has_capacity
    · simp [hcap]
    · simp only [hcap, Bool.false_eq_true, if_false]
      have h := ih (TokenBucket.capacity_info capacity fill_rate s now 1).2
      simp [h.1, h.2]

/-- C10: Every iteration of `acquire`'s wait loop probes capacity for the
default amount of 1 unit (`capacity_info()` with no argument), not for the
requested amount: the sleep trace and admission outcome are independent of
the amount, the loop exits and commits the full requested amount as soon as
a single unit fits, and consequently an `acquire(2)` on a leaky bucket of
capacity 2 at level 1 returns at once — with no waiting — even though 2
units of free capacity are not available. -/
theorem C10_loop_probes_default_amount (capacity leak_rate a₁ a₂ amount now : ℚ)
    (rest : List ℚ) (ls : LeakyBucket.State) (ts : TokenBucket.State)
    (hfitsL : (LeakyBucket.capacity_info capacity leak_rate ls now 1).1.has_capacity = true)
    (hfitsT : (TokenBucket.capacity_info capacity leak_rate ts now 1).1.has_capacity = true) :
    ((LeakyBucket.acquireGo capacity leak_rate a₁ (now :: rest) ls).sleeps
        = (LeakyBucket.acquireGo capacity leak_rate a₂ (now :: rest) ls).sleeps
      ∧ (LeakyBucket.acquireGo capacity leak_rate a₁ (now :: rest) ls).admitted
        = (LeakyBucket.acquireGo capacity leak_rate a₂ (now :: rest) ls).admitted)
    ∧ ((TokenBucket.acquireGo capacity leak_rate a₁ (now :: rest) ts).sleeps
        = (TokenBucket.acquireGo capacity leak_rate a₂ (now :: rest) ts).sleeps
      ∧ (TokenBucket.acquireGo capacity leak_rate a₁ (now :: rest) ts).admitted
        = (TokenBucket.acquireGo capacity leak_rate a₂ (now :: rest) ts).admitted)
    ∧ LeakyBucket.acquireGo capacity leak_rate amount (now :: rest) ls =
        { sleeps := [],
          state := { bucket_level := (LeakyBucket.leak leak_rate ls now).bucket_level + amount,
                     last_leak := now },
          admitted := true }
    ∧ TokenBucket.acquireGo capacity leak_rate amount (now :: rest) ts =
        { sleeps := [],
          state := { bucket_level :=
                        (TokenBucket.fill capacity leak_rate ts now).bucket_level - amount,
                     last_fill := now },
          admitted := true }
    ∧ ((LeakyBucket.capacity_info 2 2 { bucket_level := 1, last_leak := 0 } 0 2).1.has_capacity
          = false
      ∧ LeakyBucket.acquireGo 2 2 2 [0] { bucket_level := 1, last_leak := 0 } =
          { sleeps := [], state := { bucket_level := 3, last_leak := 0 }, admitted := true }) := by
  refine ⟨LeakyBucket.leaky_amount_blind capacity leak_rate a₁ a₂ (now :: rest) ls,
    TokenBucket.token_amount_blind capacity leak_rate a₁ a₂ (now :: rest) ts, ?_, ?_, ?_, ?_⟩
  · rw [LeakyBucket.acquireGo]
    simp only [hfitsL, if_true]
    simp [LeakyBucket.capacity_info, LeakyBucket.leak]
  · rw [TokenBucket.acquireGo]
    simp only [hfitsT, if_true]
    simp [TokenBucket.capacity_info, TokenBucket.fill]
  · norm_num [LeakyBucket.capacity_info, LeakyBucket.leak, pymax]
  · norm_num [LeakyBucket.acquireGo, LeakyBucket.capacity_info, LeakyBucket.leak, pymax]

/-- C10 witness: concrete admitting probes (capacity 2, rate 2, both levels
1, time 0); the early-return consequence extracted through the theorem. -/
theorem C10_loop_probes_default_amount_witness :
    (LeakyBucket.capacity_info 2 2 { bucket_level := 1, last_leak := 0 } 0 2).1.has_capacity
        = false
    ∧ LeakyBucket.acquireGo 2 2 2 [0] { bucket_level := 1, last_leak := 0 } =
        { sleeps := [], state := { bucket_level := 3, last_leak := 0 }, admitted := true } :=
  (C10_loop_probes_default_amount 2 2 1 2 2 0 []
    { bucket_level := 1, last_leak := 0 } { bucket_level := 1, last_fill := 0 }
    (by norm_num [LeakyBucket.capacity_info, LeakyBucket.leak, pymax])
    (by norm_num [TokenBucket.capacity_info, TokenBucket.fill, pymin])).2.2.2.2

/-- C1 evaluated at a failing input: the invariant `level ∈ [0, capacity]`
is violated by `acquire`'s commit.  With capacity 2 (rate 2), `acquire(1)`
then `acquire(2)` at the same instant are both admitted (each loop probe asks
for only 1 unit), leaving the leaky level at 3 > 2; the mirror-image run
leaves the token level at −1 < 0.  All amounts pass validation
(`amount ≤ capacity`). -/
theorem C1_level_escapes_bounds :
    LeakyBucket.acquire 2 2 1 [0] (LeakyBucket.init 0)
        = .ok { sleeps := [], state := { bucket_level := 1, last_leak := 0 }, admitted := true }
    ∧ LeakyBucket.acquire 2 2 2 [0] { bucket_level := 1, last_leak := 0 }
        = .ok { sleeps := [], state := { bucket_level := 3, last_leak := 0 }, admitted := true }
    ∧ ¬ ((3 : ℚ) ≤ 2)
    ∧ TokenBucket.acquire 2 2 1 [0] (TokenBucket.init 2 0)
        = .ok { sleeps := [], state := { bucket_level := 1, last_fill := 0 }, admitted := true }
    ∧ TokenBucket.acquire 2 2 2 [0] { bucket_level := 1, last_fill := 0 }
        = .ok { sleeps := [], state := { bucket_level := -1, last_fill := 0 }, admitted := true }
    ∧ ((-1 : ℚ) < 0) := by
  refine ⟨?_, ?_, by norm_num, ?_, ?_, by norm_num⟩
  · norm_num [LeakyBucket.acquire, LeakyBucket.acquireGo, LeakyBucket.capacity_info,
      LeakyBucket.leak, LeakyBucket.init, pymax]
  · norm_num [LeakyBucket.acquire, LeakyBucket.acquireGo, LeakyBucket.capacity_info,
      LeakyBucket.leak, pymax]
  · norm_num [TokenBucket.acquire, TokenBucket.acquireGo, TokenBucket.capacity_info,
      TokenBucket.fill, TokenBucket.init, pymin]
  · norm_num [TokenBucket.acquire, TokenBucket.acquireGo, TokenBucket.capacity_info,
      TokenBucket.fill, pymin]

/-- C4 evaluated at the failing input: `acquire(-1)` is NOT rejected — the
only validation in the `rate_limit` cores is `amount > capacity`.  The call
returns normally (`ok`, admitted, no sleeping) and commits the negative
amount, driving the leaky level to −1 and the token level to 3 > capacity. -/
theorem C4_negative_amount_accepted :
    LeakyBucket.acquire 2 2 (-1) [0] (LeakyBucket.init 0)
        = .ok { sleeps := [], state := { bucket_level := -1, last_leak := 0 }, admitted := true }
    ∧ TokenBucket.acquire 2 2 (-1) [0] (TokenBucket.init 2 0)
        = .ok { sleeps := [], state := { bucket_level := 3, last_fill := 0 }, admitted := true }
    ∧ isFailure (LeakyBucket.acquire 2 2 (-1) [0] (LeakyBucket.init 0)) = false
    ∧ isFailure (TokenBucket.acquire 2 2 (-1) [0] (TokenBucket.init 2 0)) = false := by
  refine ⟨?_, ?_, ?_, ?_⟩ <;>
    norm_num [LeakyBucket.acquire, LeakyBucket.acquireGo, LeakyBucket.capacity_info,
      LeakyBucket.leak, LeakyBucket.init, TokenBucket.acquire, TokenBucket.acquireGo,
      TokenBucket.capacity_info, TokenBucket.fill, TokenBucket.init, isFailure, pymax, pymin]

/-- C6 counterexample: the code does not clamp `elapsed` to `≥ 0`.  With the
clock regressed (probe instant 0 before `last_fill = 1`), the token-bucket
probe produces the negative level −2; and the leaky-bucket leak with the same
regression raises the level from 0 to 2 instead of leaving it at 0 as a
clamped `elapsed` would. -/
theorem C6_no_elapsed_clamp_counterexample :
    (TokenBucket.capacity_info 2 2 { bucket_level := 0, last_fill := 1 } 0 1).2.bucket_level
        = -2
    ∧ ((-2 : ℚ) < 0)
    ∧ (LeakyBucket.leak 2 { bucket_level := 0, last_leak := 1 } 0).bucket_level = 2 := by
  refine ⟨?_, by norm_num, ?_⟩
  · norm_num [TokenBucket.capacity_info, TokenBucket.fill, pymin]
  · norm_num [LeakyBucket.leak, pymax]

/-- C6 amended: `elapsed` is not clamped by the code.  Even under clock
regression the leaky bucket's probe never produces a negative level (its
`max(0, ·)` applies regardless) and neither engine's retry loop ever sleeps
a non-positive wait; the token bucket's probe preserves a non-negative level
only when the clock does not go backward (`elapsed ≥ 0`) — under regression
it can go negative. -/
theorem C6_amended_clock_regression (capacity rate amount now : ℚ)
    (times : List ℚ) (ls : LeakyBucket.State) (ts : TokenBucket.State)
    (hcap : 0 ≤ capacity) (hr : 0 ≤ rate) (hlvl : 0 ≤ ts.bucket_level)
    (ht : ts.last_fill ≤ now) :
    0 ≤ (LeakyBucket.leak rate ls now).bucket_level
    ∧ (∀ w ∈ (LeakyBucket.acquireGo capacity rate amount times ls).sleeps, 0 < w)
    ∧ (∀ w ∈ (TokenBucket.acquireGo capacity rate amount times ts).sleeps, 0 < w)
    ∧ 0 ≤ (TokenBucket.fill capacity rate ts now).bucket_level := by
  refine ⟨LeakyBucket.leak_level_nonneg rate ls now,
    fun w hw => LeakyBucket.leaky_sleeps_pos capacity rate amount times ls w hw,
    fun w hw => TokenBucket.token_sleeps_pos capacity rate amount times ts w hw, ?_⟩
  rw [TokenBucket.fill_bucket_level]
  exact le_min hcap (add_nonneg hlvl (mul_nonneg (by linarith) hr))

/-- C6 amended witness: a concrete forward-clock probe (capacity 2, rate 2,
token level 0, fill instant 0 → probe instant 1) keeps the level
non-negative. -/
theorem C6_amended_clock_regression_witness :
    0 ≤ (TokenBucket.fill 2 2 { bucket_level := 0, last_fill := 0 } 1).bucket_level :=
  (C6_amended_clock_regression 2 2 1 1 [] (LeakyBucket.init 0)
    { bucket_level := 0, last_fill := 0 }
    (by norm_num) (by norm_num) (by norm_num) (by norm_num)).2.2.2
